import Mathlib

/-!
Verification of the download-process orchestration core of `retrocast`:
a shallow embedding of `src/retrocast/aria_downloader.py` and
`src/retrocast/ariafetcher.py`, followed by theorems settling the frozen
claims about the reconciliation loop, URL submission, lifecycle and the
port allocator.

Modelling conventions:
* Python values flowing out of the XML-RPC channel are modelled by the
  inductive `Value` (strings, ints, None, lists, string-keyed dicts); the
  XML-RPC scalar kinds never exercised by this code path (doubles,
  booleans, base64, dates) are omitted.
* The `rich` progress display is an external UI side effect; the only
  progress state the orchestrator itself keeps is the gid -> TaskID map
  `self._tasks`, modelled as the list of gids for which a progress task
  was created (in creation order).
* Remote RPC responses are inputs of the model: a poll step takes a
  `Snapshot` of the three raw queue responses, `add_urls` takes an oracle
  assigning the gid returned by each successive `aria2.addUri` call.
* Logging calls are side-effect free and are dropped.
-/

namespace Retrocast

/-- A Python value as seen through the XML-RPC layer: a string, an int,
`None`, a list, or a string-keyed dict (insertion ordered). -/
inductive Value where
  | str : String → Value
  | int : Int → Value
  | none : Value
  | list : List Value → Value
  | dict : List (String × Value) → Value

/-- A decoded queue entry: a Python `Mapping[str, Any]`. -/
def Entry : Type := List (String × Value)

/-- `entry.get(key)`: the value stored under the first occurrence of
`key`, or Python `None` when the key is absent (indistinguishable, as in
Python `dict.get`, from a stored `None`). -/
def entryGet (e : Entry) (key : String) : Value :=
  match e.find? (fun p => p.1 == key) with
  | some p => p.2
  | Option.none => Value.none

mutual

/-- Python `repr` of a `Value`, as used by `str()` on containers.  String
escaping inside `repr` is simplified to plain quoting; no claim touches
these renderings. -/
def pyRepr : Value → String
  | .str s => "'" ++ s ++ "'"
  | .int n => toString n
  | .none => "None"
  | .list vs => "[" ++ pyReprSeq vs ++ "]"
  | .dict ps => "\x7b" ++ pyReprPairs ps ++ "\x7d"

/-- Comma-joined `repr`s of list elements. -/
def pyReprSeq : List Value → String
  | [] => ""
  | [v] => pyRepr v
  | v :: rest => pyRepr v ++ ", " ++ pyReprSeq rest

/-- Comma-joined `repr`s of dict items. -/
def pyReprPairs : List (String × Value) → String
  | [] => ""
  | [(k, v)] => "'" ++ k ++ "': " ++ pyRepr v
  | (k, v) :: rest => "'" ++ k ++ "': " ++ pyRepr v ++ ", " ++ pyReprPairs rest

end

/-- `_coerce_str(value, default)` from `aria_downloader.py`: a string is
returned unchanged, `None` gives the default, anything else is rendered
with Python `str()`. -/
def coerce_str (value : Value) (default : String) : String :=
  match value with
  | .str s => s
  | .none => default
  | v => pyRepr v

/-- `_collect_entries(value)`: the mapping items of a list response, in
order; a non-list response yields no entries. -/
def collect_entries (value : Value) : List Entry :=
  match value with
  | .list items => items.filterMap (fun item =>
      match item with
      | .dict e => some e
      | _ => Option.none)
  | _ => []

/-- `_extract_file_entries(entry)`: the mapping items of the `files`
field, or `[]` when that field is not a list. -/
def extract_file_entries (e : Entry) : List Entry :=
  match entryGet e "files" with
  | .list files => files.filterMap (fun item =>
      match item with
      | .dict fe => some fe
      | _ => Option.none)
  | _ => []

/-- Split a character list at `/` separators (the components of a POSIX
path, empty components included). -/
def splitSlashAux : List Char → List Char → List String
  | [], acc => [String.mk acc.reverse]
  | c :: rest, acc =>
      if c = '/' then String.mk acc.reverse :: splitSlashAux rest []
      else splitSlashAux rest (c :: acc)

/-- Model of `pathlib.Path(p).name` on POSIX: the last path component,
where empty components and `.` components are dropped (as pathlib's
parsing does), and the root alone has no name. -/
def pathName (p : String) : String :=
  ((splitSlashAux p.toList []).filter (fun c => c ≠ "" && c ≠ ".")).getLastD ""

/-- Model of Python `str.upper()` for the ASCII status strings that reach
it. -/
def pyUpper (s : String) : String := String.mk (s.toList.map Char.toUpper)

/-- The CompletionRecord built by `_process_stopped`: the
`dict[str, str]` stored into `self._completed` / `self._failed`. -/
structure Record where
  gid : String
  path : String
  status : String
  totalLength : String
  completedLength : String
  errorCode : String
  errorMessage : String
deriving DecidableEq, Repr

/-- The mutable state of an `AriaDownloader` instance.  `proc` and
`client` record whether `self._proc` / `self._client` are set (the OS
process and XML-RPC proxy objects themselves live outside the model);
`tasks` is the key set of `self._tasks` in creation order; `completed`,
`failed` are insertion-ordered dicts keyed by gid; `processed_stopped`
is `self._processed_stopped` as a duplicate-free list. -/
structure DState where
  directory : String
  max_concurrent : Int
  secret : Option String
  verbose : Bool
  proc : Bool
  port : Option Int
  client : Bool
  token : Option String
  tasks : List String
  completed : List (String × Record)
  failed : List (String × Record)
  processed_stopped : List String
  running : Bool
deriving DecidableEq, Repr

/-- Keys of an insertion-ordered dict. -/
def alKeys (d : List (String × Record)) : List String := d.map (fun p => p.1)

/-- Lookup in an insertion-ordered dict (first matching key). -/
def alGet : List (String × Record) → String → Option Record
  | [], _ => Option.none
  | p :: rest, k => if p.1 == k then some p.2 else alGet rest k

/-- Python `dict[k] = v`: update in place when the key exists (keeping
its position), else append. -/
def alSet : List (String × Record) → String → Record → List (String × Record)
  | [], k, v => [(k, v)]
  | p :: rest, k, v =>
      if p.1 == k then (k, v) :: rest else p :: alSet rest k v

/-- Python `set.add`. -/
def setAdd (s : List String) (g : String) : List String :=
  if g ∈ s then s else s ++ [g]

/-- `AriaDownloader.__init__`: validates `max_concurrent` (raising
`ValueError` when it is not positive) and produces the fresh instance
state. -/
def AriaDownloader.init (directory : String) (max_concurrent : Int)
    (secret : Option String) (verbose : Bool) : Except String DState :=
  if max_concurrent ≤ 0 then
    .error "max_concurrent must be greater than zero"
  else
    .ok {
      directory := directory
      max_concurrent := max_concurrent
      secret := secret
      verbose := verbose
      proc := false
      port := Option.none
      client := false
      token := secret.map (fun s => "token:" ++ s)
      tasks := []
      completed := []
      failed := []
      processed_stopped := []
      running := false
    }

/-- `AriaDownloader.start`, given that `start_aria2c_ephemeral_rpc`
succeeded and negotiated `port`: raises when already running, otherwise
stores the process handle, port and RPC client and marks the instance
running.  (Subprocess startup failure simply propagates and leaves the
state unchanged, since the assignments happen after the call returns.) -/
def AriaDownloader.start (st : DState) (port : Int) : Except String DState :=
  if st.running then
    .error "AriaDownloader has already been started"
  else
    .ok { st with proc := true, port := some port, client := true, running := true }

/-- `AriaDownloader.stop`: a no-op when not running; otherwise kills the
subprocess (external effect), clears the process and client references
and marks the instance stopped.  Every code path returns normally
(`stop_aria2c` -> `_kill` is defensive and never raises), so the model is
a total function. -/
def AriaDownloader.stop (st : DState) : DState :=
  if ¬ st.running then st
  else { st with proc := false, client := false, running := false }

/-- `AriaDownloader.get_results`: the values of the completed and failed
dicts, in insertion order. -/
def AriaDownloader.get_results (st : DState) : List Record × List Record :=
  (st.completed.map (fun p => p.2), st.failed.map (fun p => p.2))

/-- The loop of `_build_description`: scan the file entries, and on the
first one whose `path` is a non-empty string take its `pathlib` name
and break (even when that name is itself empty); otherwise continue. -/
def descriptionFilenameLoop : List Entry → String
  | [] => ""
  | fe :: rest =>
      match entryGet fe "path" with
      | Value.str p =>
          if p ≠ "" then pathName p else descriptionFilenameLoop rest
      | _ => descriptionFilenameLoop rest

/-- The filename part of `_build_description`: the loop result, falling
back to `_coerce_str(entry.get("gid"), default="unknown")` when the
resulting filename is empty. -/
def descriptionFilename (e : Entry) : String :=
  if descriptionFilenameLoop (extract_file_entries e) = "" then
    coerce_str (entryGet e "gid") "unknown"
  else descriptionFilenameLoop (extract_file_entries e)

/-- `AriaDownloader._build_description`. -/
def AriaDownloader.build_description (e : Entry) (status : String) : String :=
  descriptionFilename e ++ " [" ++ pyUpper status ++ "]"

/-- The loop of `_process_stopped` computing `path`: the first string
`path` among the file entries (the empty string is accepted and ends
the loop), else the initial empty string. -/
def firstStrPath : List Entry → String
  | [] => ""
  | fe :: rest =>
      match entryGet fe "path" with
      | Value.str p => p
      | _ => firstStrPath rest

/-- The `path` stored by `_process_stopped` for a stopped entry. -/
def stoppedPath (e : Entry) : String := firstStrPath (extract_file_entries e)

/-- The CompletionRecord `_process_stopped` builds for gid `g` from a
stopped entry. -/
def mkStoppedRecord (g : String) (e : Entry) : Record :=
  { gid := g
    path := stoppedPath e
    status := coerce_str (entryGet e "status") "unknown"
    totalLength := coerce_str (entryGet e "totalLength") "0"
    completedLength := coerce_str (entryGet e "completedLength") "0"
    errorCode := coerce_str (entryGet e "errorCode") ""
    errorMessage := coerce_str (entryGet e "errorMessage") "" }

/-- The body of `_process_stopped` for one entry: entries without a
string gid and gids already processed are skipped; otherwise the gid is
marked processed and its record routed by comparing the coerced status
with the literal `"complete"`.  The progress-bar update on `task_id` is
an external UI effect. -/
def processStoppedEntry (st : DState) (e : Entry) : DState :=
  match entryGet e "gid" with
  | .str g =>
      if g ∈ st.processed_stopped then st
      else
        if (mkStoppedRecord g e).status = "complete" then
          { st with processed_stopped := setAdd st.processed_stopped g,
                    completed := alSet st.completed g (mkStoppedRecord g e) }
        else
          { st with processed_stopped := setAdd st.processed_stopped g,
                    failed := alSet st.failed g (mkStoppedRecord g e) }
  | _ => st

/-- `AriaDownloader._process_stopped` over a list of entries. -/
def AriaDownloader.process_stopped (st : DState) (entries : List Entry) : DState :=
  entries.foldl processStoppedEntry st

/-- `AriaDownloader._ensure_task`: entries without a string gid are
ignored; a gid without a progress task gets one (the description, sizing
and completed-amount updates go to the external progress display). -/
def AriaDownloader.ensure_task (st : DState) (e : Entry) : DState :=
  match entryGet e "gid" with
  | .str g =>
      if g ∈ st.tasks then st else { st with tasks := st.tasks ++ [g] }
  | _ => st

/-- One poll's raw responses: `aria2.tellActive`, `aria2.tellWaiting(0,
1000)` and `aria2.tellStopped(0, 1000)`. -/
structure Snapshot where
  active : Value
  waiting : Value
  stopped : Value

/-- The state/result transformer of `monitor_progress` once past the
running and client checks: collect the three queues, ensure tasks for
waiting entries, ensure tasks for active entries (their byte-count
refresh is an external progress-display effect), process stopped
entries, and report whether the active or waiting queue is non-empty
(Python `bool(active or waiting)`). -/
def pollStep (st : DState) (snap : Snapshot) : DState × Bool :=
  let active := collect_entries snap.active
  let waiting := collect_entries snap.waiting
  let stoppedEntries := collect_entries snap.stopped
  let st1 := waiting.foldl AriaDownloader.ensure_task st
  let st2 := active.foldl AriaDownloader.ensure_task st1
  let st3 := AriaDownloader.process_stopped st2 stoppedEntries
  (st3, !active.isEmpty || !waiting.isEmpty)

/-- `AriaDownloader.monitor_progress`: raises when the downloader is not
running, or (inside `_rpc`) when the RPC client is not initialized;
otherwise applies `pollStep` to the remote snapshot. -/
def AriaDownloader.monitor_progress (st : DState) (snap : Snapshot) :
    Except String (DState × Bool) :=
  if ¬ st.running then .error "AriaDownloader is not running"
  else if ¬ st.client then .error "aria2c RPC client is not initialized"
  else .ok (pollStep st snap)

/-- A whole session's polling: fold `pollStep` over successive remote
snapshots. -/
def runPolls (st : DState) (snaps : List Snapshot) : DState :=
  snaps.foldl (fun s snap => (pollStep s snap).1) st

/-- Construction followed by `start()`: the state in which a session's
polling begins. -/
def sessionStart (directory : String) (max_concurrent : Int)
    (secret : Option String) (verbose : Bool) (port : Int) :
    Except String DState :=
  match AriaDownloader.init directory max_concurrent secret verbose with
  | .ok st => AriaDownloader.start st port
  | .error e => .error e

/-- gid `g` is observed in the stopped queue of one of the snapshots. -/
def observedStopped (g : String) (snaps : List Snapshot) : Prop :=
  ∃ snap ∈ snaps, ∃ e ∈ collect_entries snap.stopped,
    entryGet e "gid" = Value.str g

/-- A scheme character per `urllib.parse`: ASCII letters, digits, and
`+`, `-`, `.`. -/
def isSchemeChar (c : Char) : Bool :=
  c.isAlpha || c.isDigit || c = '+' || c = '-' || c = '.'

/-- The scheme and netloc components of `urllib.parse.urlparse(url)`,
which are all `add_urls` inspects.  Model of the stdlib's `urlsplit`:
a scheme is split off when a `:` is preceded by a non-empty run of
scheme characters starting with a letter; a netloc follows `//` and runs
to the next `/`, `?` or `#`.  Control-character stripping performed by
recent stdlib versions is omitted (no claim feeds control characters). -/
structure ParsedUrl where
  scheme : String
  netloc : String
deriving DecidableEq, Repr

/-- Model of `urllib.parse.urlparse` restricted to scheme and netloc. -/
def urlparse (url : String) : ParsedUrl :=
  let cs := url.toList
  let pre := cs.takeWhile (fun c => c ≠ ':')
  let schemeRest : String × List Char :=
    if pre.length < cs.length ∧ pre ≠ [] ∧ pre.all isSchemeChar ∧
        (pre.headD ' ').isAlpha then
      (String.mk (pre.map Char.toLower), cs.drop (pre.length + 1))
    else ("", cs)
  let rest := schemeRest.2
  let netloc :=
    match rest with
    | '/' :: '/' :: rest2 =>
        String.mk (rest2.takeWhile (fun c => c ≠ '/' ∧ c ≠ '?' ∧ c ≠ '#'))
    | _ => ""
  { scheme := schemeRest.1, netloc := netloc }

/-- The URL validation applied by `add_urls`: scheme `http` or `https`
and a non-empty network location. -/
def validUrl (url : String) : Bool :=
  let parsed := urlparse url
  (parsed.scheme == "http" || parsed.scheme == "https") && parsed.netloc ≠ ""

/-- The submission loop of `add_urls`.  `gidOf n` is the gid the remote
`aria2.addUri` call assigns to the `n`-th submission; `client` records
whether `self._client` is set (`_rpc` raises otherwise).  Returns the
`added` gids together with the trace of URLs actually submitted via
`aria2.addUri`. -/
def addUrlsLoop (client : Bool) (gidOf : Nat → String) :
    List String → Nat → Except String (List String × List String)
  | [], _ => .ok ([], [])
  | url :: rest, n =>
      if validUrl url then
        if ¬ client then .error "aria2c RPC client is not initialized"
        else
          match addUrlsLoop client gidOf rest (n + 1) with
          | .ok (gids, submitted) => .ok (gidOf n :: gids, url :: submitted)
          | .error e => .error e
      else addUrlsLoop client gidOf rest n

/-- `AriaDownloader.add_urls`: raises when not started; otherwise
validates each URL, skipping (with a warning log) those whose scheme is
not `http`/`https` or whose netloc is empty, and submits the valid ones
in order via `aria2.addUri`.  Result: the assigned gids, paired here
with the submission trace. -/
def AriaDownloader.add_urls (st : DState) (urls : List String)
    (gidOf : Nat → String) : Except String (List String × List String) :=
  if ¬ st.running then
    .error "AriaDownloader must be started before adding URLs"
  else addUrlsLoop st.client gidOf urls 0

/-!  Embedding of `ariafetcher.py`: the port allocator and the retried
subprocess startup. -/

/-- Model of `random.randint(a, b)`: raises `ValueError` when `a > b`,
otherwise returns some integer in `[a, b]` — the nondeterministic draw
is resolved by the `choice` oracle, folded into the interval. -/
def randint (a b : Int) (choice : Int) : Except String Int :=
  if a > b then .error "empty range for randrange"
  else .ok (a + choice % (b - a + 1))

/-- Helper for the Python `str.split()` model: cut a character list
into maximal runs of non-whitespace characters, dropping whitespace. -/
def splitWsAux : List Char → List Char → List String
  | [], acc => if acc = [] then [] else [String.mk acc.reverse]
  | c :: rest, acc =>
      if c.isWhitespace then
        if acc = [] then splitWsAux rest []
        else String.mk acc.reverse :: splitWsAux rest []
      else splitWsAux rest (c :: acc)

/-- Model of Python `str.split()` with no arguments: split on runs of
whitespace, producing no empty fields. -/
def pySplitWs (s : String) : List String := splitWsAux s.toList []

/-- Digit-run parser for the Python `int()` model. -/
def parseDigitsAux : List Char → Nat → Option Nat
  | [], acc => some acc
  | c :: rest, acc =>
      if c.isDigit then parseDigitsAux rest (acc * 10 + (c.toNat - 48))
      else Option.none

/-- A non-empty run of decimal digits, as a natural number. -/
def parseDigits : List Char → Option Nat
  | [] => Option.none
  | ds => parseDigitsAux ds 0

/-- Model of Python `int(s)` as used on the two fields of
`ip_local_port_range`: optional sign and decimal digits (the
surrounding whitespace was already removed by `str.split()`; underscore
digit grouping is not modelled). -/
def pyInt (s : String) : Option Int :=
  match s.toList with
  | '-' :: ds => (parseDigits ds).map (fun n => -(n : Int))
  | '+' :: ds => (parseDigits ds).map (fun n => (n : Int))
  | ds => (parseDigits ds).map (fun n => (n : Int))

/-- Parse `lo, hi = map(int, content.split())`: the destructuring and
the int conversions raise unless there are exactly two integer
fields. -/
def parsePortRange (content : String) : Option (Int × Int) :=
  match pySplitWs content with
  | [a, b] =>
      match pyInt a, pyInt b with
      | some lo, some hi => some (lo, hi)
      | _, _ => Option.none
  | _ => Option.none

/-- `system_ephemeral_range()`, as a Python `range(start, stop)` pair.
`cfg` is the content of `/proc/sys/net/ipv4/ip_local_port_range` when
that file is readable, `Option.none` when it is not; `posix` is
`os.name == "posix"`.  Any failure to read or parse falls back to
`range(30_000, 60_999)`. -/
def system_ephemeral_range (posix : Bool) (cfg : Option String) : Int × Int :=
  if posix then
    match cfg with
    | some content =>
        match parsePortRange content with
        | some (lo, hi) => (lo, hi + 1)
        | Option.none => (30000, 60999)
    | Option.none => (30000, 60999)
  else (30000, 60999)

/-- `random_port()`: `randint(rng.start, rng.stop - 1)` over the system
ephemeral range. -/
def random_port (posix : Bool) (cfg : Option String) (choice : Int) :
    Except String Int :=
  let rng := system_ephemeral_range posix cfg
  randint rng.1 (rng.2 - 1) choice

/-- Model of Python `str.strip()` on the captured stderr text. -/
def pyStrip (s : String) : String := s.trim

/-- The environment one startup attempt runs against: the port drawn by
`random_port`, whether `subprocess.Popen` finds the binary, whether the
process has already exited (with return code and stderr content) when
`proc.poll()` samples it after the 0.1 s sleep, and whether each
readiness probe succeeds within its stamina retry policy. -/
structure AttemptEnv where
  port : Int
  spawnOk : Bool
  earlyExit : Option (Int × String)
  tcpOk : Bool
  rpcOk : Bool

/-- Observable process actions of a startup attempt, tagged by attempt
index: a subprocess was spawned, was found already exited by the
post-spawn liveness sample, or was killed by `_kill`. -/
inductive StartAction where
  | spawned (attempt : Nat)
  | exitedEarly (attempt : Nat)
  | killed (attempt : Nat)
deriving DecidableEq, Repr

/-- The `RuntimeError`s `start_aria2c_ephemeral_rpc` can raise, with the
data their messages embed. -/
inductive StartErr where
  | binaryNotFound
  | processExitEarly (rc : Int) (port : Int) (stderr : String)
  | tcpNotReady (port : Int)
  | rpcNotReady (port : Int)
deriving DecidableEq, Repr

/-- One attempt of `start_aria2c_ephemeral_rpc` (the body inside the
stamina retry), returning the trace of process actions and either the
live process (as its attempt index) with its port, or the raised
error. -/
def startAttempt (i : Nat) (env : AttemptEnv) :
    List StartAction × Except StartErr (Nat × Int) :=
  if ¬ env.spawnOk then ([], .error .binaryNotFound)
  else
    match env.earlyExit with
    | some (rc, errOut) =>
        ([.spawned i, .exitedEarly i],
         .error (.processExitEarly rc env.port (pyStrip errOut)))
    | Option.none =>
        if ¬ env.tcpOk then
          ([.spawned i, .killed i], .error (.tcpNotReady env.port))
        else if ¬ env.rpcOk then
          ([.spawned i, .killed i], .error (.rpcNotReady env.port))
        else ([.spawned i], .ok (i, env.port))

/-- The stamina retry loop around the attempt body: on `RuntimeError`
retry with backoff while attempts remain, re-raising the last error once
the attempt budget is spent.  `envs i` is the environment of attempt
`i`. -/
def startRetryGo (envs : Nat → AttemptEnv) (i : Nat) :
    Nat → List StartAction × Except StartErr (Nat × Int)
  | 0 => ([], .error .binaryNotFound)
  | fuel + 1 =>
      match startAttempt i (envs i) with
      | (acts, .ok v) => (acts, .ok v)
      | (acts, .error e) =>
          if fuel = 0 then (acts, .error e)
          else ((acts ++ (startRetryGo envs (i + 1) fuel).1),
            (startRetryGo envs (i + 1) fuel).2)

/-- `start_aria2c_ephemeral_rpc`: the attempt body under
`stamina.retry(on=RuntimeError, attempts=5)`. -/
def start_aria2c_ephemeral_rpc (envs : Nat → AttemptEnv) :
    List StartAction × Except StartErr (Nat × Int) :=
  startRetryGo envs 0 5

/-- A process is still running after a trace if it was spawned but
neither observed exited nor killed. -/
def leftRunning (acts : List StartAction) (i : Nat) : Prop :=
  StartAction.spawned i ∈ acts ∧ StartAction.exitedEarly i ∉ acts ∧
    StartAction.killed i ∉ acts

/-- Reconciliation invariant of the orchestrator state: the completed
and failed dicts are duplicate-free, disjoint, and together cover
exactly the processed gids. -/
def Inv (st : DState) : Prop :=
  (alKeys st.completed).Nodup ∧ (alKeys st.failed).Nodup ∧
  (∀ g, g ∈ alKeys st.completed → g ∉ alKeys st.failed) ∧
  (∀ g, (g ∈ alKeys st.completed ∨ g ∈ alKeys st.failed) ↔
    g ∈ st.processed_stopped)

/-!  Concrete sample inputs used by the witness theorems. -/

/-- A freshly started downloader state (directory dl, concurrency 1, no
secret, port 6800). -/
def demoState : DState :=
  { directory := "dl", max_concurrent := 1, secret := Option.none,
    verbose := false, proc := true, port := some 6800, client := true,
    token := Option.none, tasks := [], completed := [], failed := [],
    processed_stopped := [], running := true }

/-- A stopped entry that finished successfully. -/
def egComplete : Entry :=
  [("gid", Value.str "g1"), ("status", Value.str "complete"),
   ("totalLength", Value.str "1000"), ("completedLength", Value.str "1000")]

/-- The spec's failing stopped entry: status error, code 1, message
timeout. -/
def egError : Entry :=
  [("gid", Value.str "g2"), ("status", Value.str "error"),
   ("errorCode", Value.str "1"), ("errorMessage", Value.str "timeout")]

/-- A stopped entry reporting one file path. -/
def egFilePath : Entry :=
  [("gid", Value.str "g3"), ("status", Value.str "error"),
   ("files", Value.list [Value.dict [("path", Value.str "/downloads/a.mp3")]])]

/-- A snapshot with idle waiting/active queues and one completed stopped
entry. -/
def snapDone : Snapshot :=
  ⟨Value.list [], Value.list [], Value.list [Value.dict egComplete]⟩

/-- A fully idle snapshot. -/
def snapIdle : Snapshot := ⟨Value.list [], Value.list [], Value.list []⟩

/-- An attempt environment whose TCP readiness probe exhausts its retry
policy. -/
def demoTcpFailEnv : AttemptEnv :=
  { port := 6800, spawnOk := true, earlyExit := Option.none,
    tcpOk := false, rpcOk := true }

/-- An attempt environment whose subprocess exits during the post-spawn
liveness sample (port collision), with stderr text. -/
def demoExitEnv : AttemptEnv :=
  { port := 6800, spawnOk := true,
    earlyExit := some (1, " could not bind\n"), tcpOk := true,
    rpcOk := true }

/-!  Association-list lemmas for the completed/failed dicts. -/

theorem alGet_isSome_iff (d : List (String × Record)) (g : String) :
    (alGet d g).isSome ↔ g ∈ alKeys d := by
  induction d with
  | nil => simp [alGet, alKeys]
  | cons q rest ih =>
      by_cases hq : q.1 = g
      · simp [alGet, alKeys, hq]
      · simp only [alGet, alKeys, List.map_cons, List.mem_cons]
        rw [if_neg (by simpa using hq), ih]
        simp [alKeys, Ne.symm hq]

theorem alGet_eq_none_iff (d : List (String × Record)) (g : String) :
    alGet d g = Option.none ↔ g ∉ alKeys d := by
  rw [← alGet_isSome_iff]
  cases h : alGet d g <;> simp

theorem alSet_of_not_mem (d : List (String × Record)) (k : String) (v : Record)
    (h : k ∉ alKeys d) : alSet d k v = d ++ [(k, v)] := by
  induction d with
  | nil => rfl
  | cons q rest ih =>
      have hqk : q.1 ≠ k := by
        intro hq
        exact h (by simp [alKeys, hq])
      have hk : k ∉ alKeys rest := fun hmem => h (by simp [alKeys] at *; tauto)
      simp [alSet, hqk, ih hk]

theorem alKeys_append (d d' : List (String × Record)) :
    alKeys (d ++ d') = alKeys d ++ alKeys d' := by
  unfold alKeys; simp

theorem alGet_alSet_self (d : List (String × Record)) (k : String) (v : Record) :
    alGet (alSet d k v) k = some v := by
  induction d with
  | nil => simp [alSet, alGet]
  | cons q rest ih =>
      by_cases hq : q.1 = k
      · simp [alSet, alGet, hq]
      · simp [alSet, alGet, hq, ih]

theorem alGet_alSet_ne (d : List (String × Record)) (k g : String) (v : Record)
    (h : g ≠ k) : alGet (alSet d k v) g = alGet d g := by
  induction d with
  | nil => simp [alSet, alGet, Ne.symm h]
  | cons q rest ih =>
      by_cases hq : q.1 = k
      · simp [alSet, alGet, hq, Ne.symm h, ih]
      · by_cases hqg : q.1 = g
        · simp [alSet, alGet, hq, hqg, h]
        · simp [alSet, alGet, hq, hqg, ih]

theorem setAdd_of_not_mem (s : List String) (g : String) (h : g ∉ s) :
    setAdd s g = s ++ [g] := by
  unfold setAdd; rw [if_neg h]

theorem mem_setAdd (s : List String) (g g' : String) :
    g' ∈ setAdd s g ↔ g' ∈ s ∨ g' = g := by
  unfold setAdd
  by_cases h : g ∈ s
  · rw [if_pos h]
    constructor
    · exact Or.inl
    · rintro (hm | rfl)
      · exact hm
      · exact h
  · rw [if_neg h]; simp

/-!  The reconciliation invariant: the completed and failed dicts are
duplicate-free, disjoint, and together cover exactly the processed
gids. -/

theorem processStoppedEntry_str (st : DState) (e : Entry) (g : String)
    (hg : entryGet e "gid" = Value.str g) :
    processStoppedEntry st e =
      if g ∈ st.processed_stopped then st
      else if (mkStoppedRecord g e).status = "complete" then
        { st with processed_stopped := setAdd st.processed_stopped g,
                  completed := alSet st.completed g (mkStoppedRecord g e) }
      else
        { st with processed_stopped := setAdd st.processed_stopped g,
                  failed := alSet st.failed g (mkStoppedRecord g e) } := by
  unfold processStoppedEntry
  rw [hg]

theorem processStoppedEntry_skip (st : DState) (e : Entry)
    (hg : ∀ g, entryGet e "gid" ≠ Value.str g) :
    processStoppedEntry st e = st := by
  unfold processStoppedEntry
  cases hvg : entryGet e "gid" with
  | str g => exact absurd hvg (hg g)
  | none => rfl
  | int n => rfl
  | list vs => rfl
  | dict ps => rfl

theorem inv_processStoppedEntry (st : DState) (e : Entry) (h : Inv st) :
    Inv (processStoppedEntry st e) := by
  obtain ⟨hc, hf, hdisj, hiff⟩ := h
  cases hg : entryGet e "gid" with
  | str g =>
      rw [processStoppedEntry_str st e g hg]
      by_cases hp : g ∈ st.processed_stopped
      · rw [if_pos hp]; exact ⟨hc, hf, hdisj, hiff⟩
      · rw [if_neg hp]
        have hgc : g ∉ alKeys st.completed := fun hmem =>
          hp ((hiff g).mp (Or.inl hmem))
        have hgf : g ∉ alKeys st.failed := fun hmem =>
          hp ((hiff g).mp (Or.inr hmem))
        by_cases hs : (mkStoppedRecord g e).status = "complete"
        · rw [if_pos hs]
          refine ⟨?_, hf, ?_, ?_⟩
          · rw [alSet_of_not_mem _ _ _ hgc, alKeys_append]
            simp only [alKeys, List.map_cons, List.map_nil]
            exact List.Nodup.append hc (List.nodup_singleton g)
              (fun a ha hb => by
                rcases List.mem_singleton.mp hb with rfl
                exact hgc ha)
          · intro g' hg'
            rw [alSet_of_not_mem _ _ _ hgc, alKeys_append] at hg'
            rcases List.mem_append.mp hg' with hin | hone
            · exact hdisj g' hin
            · rcases List.mem_singleton.mp (by simpa [alKeys] using hone) with rfl
              exact hgf
          · intro g'
            rw [alSet_of_not_mem _ _ _ hgc, alKeys_append,
              setAdd_of_not_mem _ _ hp]
            simp only [List.mem_append, alKeys, List.map_cons, List.map_nil,
              List.mem_singleton]
            constructor
            · rintro ((hin | hone) | hfin)
              · exact Or.inl ((hiff g').mp (Or.inl hin))
              · exact Or.inr hone
              · exact Or.inl ((hiff g').mp (Or.inr hfin))
            · rintro (hin | rfl)
              · rcases (hiff g').mpr hin with hcin | hfin
                · exact Or.inl (Or.inl hcin)
                · exact Or.inr hfin
              · exact Or.inl (Or.inr rfl)
        · rw [if_neg hs]
          refine ⟨hc, ?_, ?_, ?_⟩
          · rw [alSet_of_not_mem _ _ _ hgf, alKeys_append]
            simp only [alKeys, List.map_cons, List.map_nil]
            exact List.Nodup.append hf (List.nodup_singleton g)
              (fun a ha hb => by
                rcases List.mem_singleton.mp hb with rfl
                exact hgf ha)
          · intro g' hg'
            rw [alSet_of_not_mem _ _ _ hgf, alKeys_append]
            intro hmem
            rcases List.mem_append.mp hmem with hin | hone
            · exact hdisj g' hg' hin
            · rcases List.mem_singleton.mp (by simpa [alKeys] using hone) with rfl
              exact hgc hg'
          · intro g'
            rw [alSet_of_not_mem _ _ _ hgf, alKeys_append,
              setAdd_of_not_mem _ _ hp]
            simp only [List.mem_append, alKeys, List.map_cons, List.map_nil,
              List.mem_singleton]
            constructor
            · rintro (hin | (hfin | hone))
              · exact Or.inl ((hiff g').mp (Or.inl hin))
              · exact Or.inl ((hiff g').mp (Or.inr hfin))
              · exact Or.inr hone
            · rintro (hin | rfl)
              · rcases (hiff g').mpr hin with hcin | hfin
                · exact Or.inl hcin
                · exact Or.inr (Or.inl hfin)
              · exact Or.inr (Or.inr rfl)
  | none =>
      rw [processStoppedEntry_skip st e (fun g hcontra => by
        rw [hg] at hcontra; cases hcontra)]
      exact ⟨hc, hf, hdisj, hiff⟩
  | int n =>
      rw [processStoppedEntry_skip st e (fun g hcontra => by
        rw [hg] at hcontra; cases hcontra)]
      exact ⟨hc, hf, hdisj, hiff⟩
  | list vs =>
      rw [processStoppedEntry_skip st e (fun g hcontra => by
        rw [hg] at hcontra; cases hcontra)]
      exact ⟨hc, hf, hdisj, hiff⟩
  | dict ps =>
      rw [processStoppedEntry_skip st e (fun g hcontra => by
        rw [hg] at hcontra; cases hcontra)]
      exact ⟨hc, hf, hdisj, hiff⟩

theorem processStoppedEntry_cases (st : DState) (e : Entry) :
    processStoppedEntry st e = st ∨
    ∃ g, entryGet e "gid" = Value.str g ∧ g ∉ st.processed_stopped ∧
      processStoppedEntry st e =
        (if (mkStoppedRecord g e).status = "complete" then
          { st with processed_stopped := setAdd st.processed_stopped g,
                    completed := alSet st.completed g (mkStoppedRecord g e) }
        else
          { st with processed_stopped := setAdd st.processed_stopped g,
                    failed := alSet st.failed g (mkStoppedRecord g e) }) := by
  cases hg : entryGet e "gid" with
  | str g =>
      by_cases hp : g ∈ st.processed_stopped
      · exact Or.inl (by rw [processStoppedEntry_str st e g hg, if_pos hp])
      · exact Or.inr ⟨g, rfl, hp,
          by rw [processStoppedEntry_str st e g hg, if_neg hp]⟩
  | none => exact Or.inl (processStoppedEntry_skip st e (fun g hcontra => by
      rw [hg] at hcontra; cases hcontra))
  | int n => exact Or.inl (processStoppedEntry_skip st e (fun g hcontra => by
      rw [hg] at hcontra; cases hcontra))
  | list vs => exact Or.inl (processStoppedEntry_skip st e (fun g hcontra => by
      rw [hg] at hcontra; cases hcontra))
  | dict ps => exact Or.inl (processStoppedEntry_skip st e (fun g hcontra => by
      rw [hg] at hcontra; cases hcontra))

theorem processStoppedEntry_mono (st : DState) (e : Entry) (g : String)
    (h : g ∈ st.processed_stopped) :
    g ∈ (processStoppedEntry st e).processed_stopped := by
  rcases processStoppedEntry_cases st e with heq | ⟨g', _, _, heq⟩
  · rw [heq]; exact h
  · rw [heq]
    by_cases hs : (mkStoppedRecord g' e).status = "complete" <;>
      simp [hs, mem_setAdd, h]

theorem processStoppedEntry_stable (st : DState) (e : Entry) (g : String)
    (h : g ∈ st.processed_stopped) :
    alGet (processStoppedEntry st e).completed g = alGet st.completed g ∧
    alGet (processStoppedEntry st e).failed g = alGet st.failed g := by
  rcases processStoppedEntry_cases st e with heq | ⟨g', _, hfresh, heq⟩
  · rw [heq]; exact ⟨rfl, rfl⟩
  · have hne : g ≠ g' := fun hgg => hfresh (hgg ▸ h)
    rw [heq]
    by_cases hs : (mkStoppedRecord g' e).status = "complete" <;>
      simp [hs, alGet_alSet_ne _ _ _ _ hne]

theorem processStoppedEntry_observes (st : DState) (e : Entry) (g : String)
    (hg : entryGet e "gid" = Value.str g) :
    g ∈ (processStoppedEntry st e).processed_stopped := by
  rw [processStoppedEntry_str st e g hg]
  by_cases hp : g ∈ st.processed_stopped
  · rw [if_pos hp]; exact hp
  · rw [if_neg hp]
    by_cases hs : (mkStoppedRecord g e).status = "complete" <;>
      simp [hs, mem_setAdd]

theorem process_stopped_inv (entries : List Entry) (st : DState) (h : Inv st) :
    Inv (AriaDownloader.process_stopped st entries) := by
  induction entries generalizing st with
  | nil => exact h
  | cons e rest ih =>
      exact ih (processStoppedEntry st e) (inv_processStoppedEntry st e h)

theorem process_stopped_mono (entries : List Entry) (st : DState) (g : String)
    (h : g ∈ st.processed_stopped) :
    g ∈ (AriaDownloader.process_stopped st entries).processed_stopped := by
  induction entries generalizing st with
  | nil => exact h
  | cons e rest ih =>
      exact ih (processStoppedEntry st e) (processStoppedEntry_mono st e g h)

theorem process_stopped_stable (entries : List Entry) (st : DState) (g : String)
    (h : g ∈ st.processed_stopped) :
    alGet (AriaDownloader.process_stopped st entries).completed g =
      alGet st.completed g ∧
    alGet (AriaDownloader.process_stopped st entries).failed g =
      alGet st.failed g := by
  induction entries generalizing st with
  | nil => exact ⟨rfl, rfl⟩
  | cons e rest ih =>
      have hstep := processStoppedEntry_stable st e g h
      have hmono := processStoppedEntry_mono st e g h
      have hrest := ih (processStoppedEntry st e) hmono
      exact ⟨hrest.1.trans hstep.1, hrest.2.trans hstep.2⟩

theorem process_stopped_observes (entries : List Entry) (st : DState)
    (e : Entry) (g : String) (he : e ∈ entries)
    (hg : entryGet e "gid" = Value.str g) :
    g ∈ (AriaDownloader.process_stopped st entries).processed_stopped := by
  induction entries generalizing st with
  | nil => cases he
  | cons e' rest ih =>
      rcases List.mem_cons.mp he with rfl | hmem
      · exact process_stopped_mono rest (processStoppedEntry st e) g
          (processStoppedEntry_observes st e g hg)
      · exact ih (processStoppedEntry st e') hmem

theorem ensure_task_frame (st : DState) (e : Entry) :
    (AriaDownloader.ensure_task st e).completed = st.completed ∧
    (AriaDownloader.ensure_task st e).failed = st.failed ∧
    (AriaDownloader.ensure_task st e).processed_stopped =
      st.processed_stopped := by
  unfold AriaDownloader.ensure_task
  cases hg : entryGet e "gid" with
  | str g =>
      dsimp only
      by_cases ht : g ∈ st.tasks
      · rw [if_pos ht]; exact ⟨rfl, rfl, rfl⟩
      · rw [if_neg ht]; exact ⟨rfl, rfl, rfl⟩
  | none => exact ⟨rfl, rfl, rfl⟩
  | int n => exact ⟨rfl, rfl, rfl⟩
  | list vs => exact ⟨rfl, rfl, rfl⟩
  | dict ps => exact ⟨rfl, rfl, rfl⟩

theorem ensure_task_fold_frame (entries : List Entry) (st : DState) :
    (entries.foldl AriaDownloader.ensure_task st).completed = st.completed ∧
    (entries.foldl AriaDownloader.ensure_task st).failed = st.failed ∧
    (entries.foldl AriaDownloader.ensure_task st).processed_stopped =
      st.processed_stopped := by
  induction entries generalizing st with
  | nil => exact ⟨rfl, rfl, rfl⟩
  | cons e rest ih =>
      have hstep := ensure_task_frame st e
      have hrest := ih (AriaDownloader.ensure_task st e)
      exact ⟨hrest.1.trans hstep.1, hrest.2.1.trans hstep.2.1,
        hrest.2.2.trans hstep.2.2⟩

theorem inv_frame (st st' : DState) (hc : st'.completed = st.completed)
    (hf : st'.failed = st.failed)
    (hp : st'.processed_stopped = st.processed_stopped) (h : Inv st) :
    Inv st' := by
  unfold Inv
  rw [hc, hf, hp]
  exact h

theorem pollStep_inv (st : DState) (snap : Snapshot) (h : Inv st) :
    Inv (pollStep st snap).1 := by
  unfold pollStep
  apply process_stopped_inv
  have h1 := ensure_task_fold_frame (collect_entries snap.waiting) st
  have h2 := ensure_task_fold_frame (collect_entries snap.active)
    ((collect_entries snap.waiting).foldl AriaDownloader.ensure_task st)
  exact inv_frame _ _ (h2.1.trans h1.1) (h2.2.1.trans h1.2.1)
    (h2.2.2.trans h1.2.2) h

theorem pollStep_mono (st : DState) (snap : Snapshot) (g : String)
    (h : g ∈ st.processed_stopped) :
    g ∈ (pollStep st snap).1.processed_stopped := by
  unfold pollStep
  apply process_stopped_mono
  have h1 := ensure_task_fold_frame (collect_entries snap.waiting) st
  have h2 := ensure_task_fold_frame (collect_entries snap.active)
    ((collect_entries snap.waiting).foldl AriaDownloader.ensure_task st)
  rw [h2.2.2, h1.2.2]
  exact h

theorem pollStep_stable (st : DState) (snap : Snapshot) (g : String)
    (h : g ∈ st.processed_stopped) :
    alGet (pollStep st snap).1.completed g = alGet st.completed g ∧
    alGet (pollStep st snap).1.failed g = alGet st.failed g := by
  unfold pollStep
  have h1 := ensure_task_fold_frame (collect_entries snap.waiting) st
  have h2 := ensure_task_fold_frame (collect_entries snap.active)
    ((collect_entries snap.waiting).foldl AriaDownloader.ensure_task st)
  have hp : ((collect_entries snap.active).foldl AriaDownloader.ensure_task
      ((collect_entries snap.waiting).foldl AriaDownloader.ensure_task
        st)).processed_stopped = st.processed_stopped :=
    h2.2.2.trans h1.2.2
  have hs := process_stopped_stable (collect_entries snap.stopped) _ g
    (by rw [hp]; exact h)
  refine ⟨hs.1.trans ?_, hs.2.trans ?_⟩
  · rw [h2.1, h1.1]
  · rw [h2.2.1, h1.2.1]

theorem pollStep_observes (st : DState) (snap : Snapshot) (e : Entry)
    (g : String) (he : e ∈ collect_entries snap.stopped)
    (hg : entryGet e "gid" = Value.str g) :
    g ∈ (pollStep st snap).1.processed_stopped := by
  unfold pollStep
  exact process_stopped_observes _ _ e g he hg

theorem runPolls_inv (snaps : List Snapshot) (st : DState) (h : Inv st) :
    Inv (runPolls st snaps) := by
  induction snaps generalizing st with
  | nil => exact h
  | cons snap rest ih => exact ih (pollStep st snap).1 (pollStep_inv st snap h)

theorem runPolls_mono (snaps : List Snapshot) (st : DState) (g : String)
    (h : g ∈ st.processed_stopped) :
    g ∈ (runPolls st snaps).processed_stopped := by
  induction snaps generalizing st with
  | nil => exact h
  | cons snap rest ih =>
      exact ih (pollStep st snap).1 (pollStep_mono st snap g h)

theorem runPolls_stable (snaps : List Snapshot) (st : DState) (g : String)
    (h : g ∈ st.processed_stopped) :
    alGet (runPolls st snaps).completed g = alGet st.completed g ∧
    alGet (runPolls st snaps).failed g = alGet st.failed g := by
  induction snaps generalizing st with
  | nil => exact ⟨rfl, rfl⟩
  | cons snap rest ih =>
      have hstep := pollStep_stable st snap g h
      have hrest := ih (pollStep st snap).1 (pollStep_mono st snap g h)
      exact ⟨hrest.1.trans hstep.1, hrest.2.trans hstep.2⟩

theorem runPolls_observes (snaps : List Snapshot) (st : DState) (g : String)
    (h : observedStopped g snaps) :
    g ∈ (runPolls st snaps).processed_stopped := by
  induction snaps generalizing st with
  | nil => rcases h with ⟨snap, hmem, _⟩; cases hmem
  | cons snap rest ih =>
      rcases h with ⟨snap', hmem, e, he, hg⟩
      rcases List.mem_cons.mp hmem with rfl | hmem'
      · exact runPolls_mono rest (pollStep st snap').1 g
          (pollStep_observes st snap' e g he hg)
      · exact ih (pollStep st snap).1 ⟨snap', hmem', e, he, hg⟩

theorem sessionStart_state (d : String) (m : Int) (sec : Option String)
    (v : Bool) (port : Int) (st1 : DState)
    (h : sessionStart d m sec v port = .ok st1) :
    st1.completed = [] ∧ st1.failed = [] ∧ st1.processed_stopped = [] ∧
    st1.running = true ∧ st1.client = true := by
  unfold sessionStart AriaDownloader.init at h
  by_cases hm : m ≤ 0
  · rw [if_pos hm] at h; cases h
  · rw [if_neg hm] at h
    unfold AriaDownloader.start at h
    simp only [if_neg (by simp : ¬ false = true)] at h
    cases h
    exact ⟨rfl, rfl, rfl, rfl, rfl⟩

/-!  Claim theorems. -/

/-- C2: for every started orchestrator (running with an initialized RPC
client) and every snapshot of the three remote queues, monitor_progress
succeeds and returns false exactly when both the waiting and the active
remote queues of that snapshot are empty, and true otherwise. -/
theorem c2_pollOnce_false_iff_queues_empty (st : DState) (snap : Snapshot)
    (hr : st.running = true) (hc : st.client = true) :
    AriaDownloader.monitor_progress st snap = .ok (pollStep st snap) ∧
    ((pollStep st snap).2 = false ↔
      collect_entries snap.waiting = [] ∧ collect_entries snap.active = []) := by
  constructor
  · simp [AriaDownloader.monitor_progress, hr, hc]
  · show (!(collect_entries snap.active).isEmpty ||
        !(collect_entries snap.waiting).isEmpty) = false ↔ _
    simp only [Bool.or_eq_false_iff, Bool.not_eq_false', List.isEmpty_iff]
    exact ⟨fun ⟨ha, hw⟩ => ⟨hw, ha⟩, fun ⟨hw, ha⟩ => ⟨ha, hw⟩⟩

/-- C2 witness: monitor_progress on the started demo state with an idle
snapshot returns false. -/
theorem c2_witness :
    AriaDownloader.monitor_progress demoState snapIdle =
      .ok (pollStep demoState snapIdle) ∧
    ((pollStep demoState snapIdle).2 = false ↔
      collect_entries snapIdle.waiting = [] ∧
      collect_entries snapIdle.active = []) :=
  c2_pollOnce_false_iff_queues_empty demoState snapIdle rfl rfl

/-- C8: stop is total (never raises) and idempotent: a second
consecutive stop leaves the state of the first, and stop before any
start is a no-op on the freshly constructed state. -/
theorem c8_stop_idempotent (st : DState) (d : String) (m : Int)
    (sec : Option String) (v : Bool) (st0 : DState)
    (h : AriaDownloader.init d m sec v = .ok st0) :
    AriaDownloader.stop (AriaDownloader.stop st) = AriaDownloader.stop st ∧
    AriaDownloader.stop st0 = st0 := by
  constructor
  · by_cases hr : st.running = true
    · have h1 : AriaDownloader.stop st =
          { st with proc := false, client := false, running := false } := by
        unfold AriaDownloader.stop
        rw [if_neg (not_not_intro hr)]
      rw [h1]
      unfold AriaDownloader.stop
      rw [if_pos (by simp)]
    · have hr' : ¬ st.running := by simpa using hr
      have h1 : AriaDownloader.stop st = st := by
        unfold AriaDownloader.stop; rw [if_pos hr']
      rw [h1, h1]
  · unfold AriaDownloader.init at h
    by_cases hm : m ≤ 0
    · rw [if_pos hm] at h; cases h
    · rw [if_neg hm] at h
      cases h
      unfold AriaDownloader.stop
      rw [if_pos (by simp)]

/-- C8 witness: double stop on the running demo state, and stop on a
freshly constructed instance. -/
theorem c8_witness :
    AriaDownloader.stop (AriaDownloader.stop demoState) =
      AriaDownloader.stop demoState ∧
    AriaDownloader.stop
        { directory := "dl", max_concurrent := 1, secret := Option.none,
          verbose := false, proc := false, port := Option.none,
          client := false, token := Option.none, tasks := [],
          completed := [], failed := [], processed_stopped := [],
          running := false } =
      { directory := "dl", max_concurrent := 1, secret := Option.none,
        verbose := false, proc := false, port := Option.none,
        client := false, token := Option.none, tasks := [],
        completed := [], failed := [], processed_stopped := [],
        running := false } :=
  c8_stop_idempotent demoState "dl" 1 Option.none false _ rfl

/-- C10: stop only touches the process reference, the RPC client
reference and the running flag; the completed and failed collections,
the processed-gid set, the task map, the stored port and the
configuration are unchanged, so get_results after stop returns exactly
the records accumulated before. -/
theorem c10_stop_preserves_results (st : DState) :
    (AriaDownloader.stop st).completed = st.completed ∧
    (AriaDownloader.stop st).failed = st.failed ∧
    (AriaDownloader.stop st).processed_stopped = st.processed_stopped ∧
    (AriaDownloader.stop st).tasks = st.tasks ∧
    (AriaDownloader.stop st).port = st.port ∧
    (AriaDownloader.stop st).directory = st.directory ∧
    (AriaDownloader.stop st).max_concurrent = st.max_concurrent ∧
    (AriaDownloader.stop st).secret = st.secret ∧
    AriaDownloader.get_results (AriaDownloader.stop st) =
      AriaDownloader.get_results st := by
  unfold AriaDownloader.stop AriaDownloader.get_results
  by_cases hr : ¬ st.running
  · rw [if_pos hr]
    exact ⟨rfl, rfl, rfl, rfl, rfl, rfl, rfl, rfl, rfl⟩
  · rw [if_neg hr]
    exact ⟨rfl, rfl, rfl, rfl, rfl, rfl, rfl, rfl, rfl⟩

/-- C9 counterexample: random_port is not total.  With a readable
kernel configuration whose bounds are inverted (content 5 2), the
parsed range is empty and the underlying randint raises, so the claim
that random_port has no failure mode under any readable kernel
configuration is false. -/
theorem c9_counterexample :
    random_port true (some "5 2") 0 = .error "empty range for randrange" := by
  rfl

/-- C9 amended: whenever the configured range is non-degenerate (its
start does not exceed its inclusive end) random_port returns an integer
within that range, and the fallback range used when the kernel
configuration is not queryable is Python range(30000, 60999), so the
port then lies within 30000..60998 (in particular within the claimed
30000..60999).  Only an inverted readable kernel range makes it
raise. -/
theorem c9_random_port_in_range (posix : Bool) (cfg : Option String)
    (choice : Int)
    (h : (system_ephemeral_range posix cfg).1 ≤
      (system_ephemeral_range posix cfg).2 - 1) :
    ∃ p, random_port posix cfg choice = .ok p ∧
      (system_ephemeral_range posix cfg).1 ≤ p ∧
      p ≤ (system_ephemeral_range posix cfg).2 - 1 ∧
      system_ephemeral_range posix Option.none = (30000, 60999) := by
  unfold random_port randint
  rw [if_neg (by omega)]
  have hk : (0 : Int) <
      (system_ephemeral_range posix cfg).2 - 1 -
        (system_ephemeral_range posix cfg).1 + 1 := by omega
  have h1 := Int.emod_nonneg choice (by omega :
    (system_ephemeral_range posix cfg).2 - 1 -
      (system_ephemeral_range posix cfg).1 + 1 ≠ 0)
  have h2 := Int.emod_lt_of_pos choice hk
  refine ⟨_, rfl, by omega, by omega, ?_⟩
  unfold system_ephemeral_range
  cases posix <;> rfl

/-- C9 witness: with an unreadable kernel configuration the amended
theorem yields a port in the fallback range. -/
theorem c9_witness :
    ∃ p, random_port true Option.none 12345 = .ok p ∧
      (system_ephemeral_range true Option.none).1 ≤ p ∧
      p ≤ (system_ephemeral_range true Option.none).2 - 1 ∧
      system_ephemeral_range true Option.none = (30000, 60999) :=
  c9_random_port_in_range true Option.none 12345 (by decide)

/-- C1: in one session (construction plus a successful start), over any
sequence of poll snapshots, every GID observed in a stopped queue is
recorded in exactly one of the completed and failed collections, never
in both and never twice (the key lists are duplicate-free); and once a
record exists for a GID, any further polling sequence neither changes
that record nor moves the GID to the other collection. -/
theorem c1_stopped_gid_recorded_exactly_once (d : String) (m : Int)
    (sec : Option String) (v : Bool) (port : Int) (st1 : DState)
    (h : sessionStart d m sec v port = .ok st1)
    (snaps more : List Snapshot) (g : String) (r : Record) :
    (observedStopped g snaps →
      (g ∈ alKeys (runPolls st1 snaps).completed ∧
        g ∉ alKeys (runPolls st1 snaps).failed) ∨
      (g ∈ alKeys (runPolls st1 snaps).failed ∧
        g ∉ alKeys (runPolls st1 snaps).completed)) ∧
    (alKeys (runPolls st1 snaps).completed).Nodup ∧
    (alKeys (runPolls st1 snaps).failed).Nodup ∧
    (alGet (runPolls st1 snaps).completed g = some r →
      alGet (runPolls (runPolls st1 snaps) more).completed g = some r ∧
      g ∉ alKeys (runPolls (runPolls st1 snaps) more).failed) ∧
    (alGet (runPolls st1 snaps).failed g = some r →
      alGet (runPolls (runPolls st1 snaps) more).failed g = some r ∧
      g ∉ alKeys (runPolls (runPolls st1 snaps) more).completed) := by
  obtain ⟨hc0, hf0, hp0, _, _⟩ := sessionStart_state d m sec v port st1 h
  have hInv1 : Inv st1 := by
    unfold Inv
    rw [hc0, hf0, hp0]
    simp [alKeys]
  have hInv : Inv (runPolls st1 snaps) := runPolls_inv snaps st1 hInv1
  obtain ⟨hndc, hndf, hdisj, hiff⟩ := hInv
  refine ⟨?_, hndc, hndf, ?_, ?_⟩
  · intro hobs
    have hproc : g ∈ (runPolls st1 snaps).processed_stopped :=
      runPolls_observes snaps st1 g hobs
    rcases (hiff g).mpr hproc with hin | hin
    · exact Or.inl ⟨hin, hdisj g hin⟩
    · refine Or.inr ⟨hin, fun hcin => ?_⟩
      exact hdisj g hcin hin
  · intro hget
    have hmemc : g ∈ alKeys (runPolls st1 snaps).completed := by
      rw [← alGet_isSome_iff, hget]; rfl
    have hproc : g ∈ (runPolls st1 snaps).processed_stopped :=
      (hiff g).mp (Or.inl hmemc)
    have hstable := runPolls_stable more (runPolls st1 snaps) g hproc
    refine ⟨hstable.1.trans hget, ?_⟩
    rw [← alGet_eq_none_iff, hstable.2]
    rw [alGet_eq_none_iff]
    exact hdisj g hmemc
  · intro hget
    have hmemf : g ∈ alKeys (runPolls st1 snaps).failed := by
      rw [← alGet_isSome_iff, hget]; rfl
    have hproc : g ∈ (runPolls st1 snaps).processed_stopped :=
      (hiff g).mp (Or.inr hmemf)
    have hstable := runPolls_stable more (runPolls st1 snaps) g hproc
    refine ⟨hstable.2.trans hget, ?_⟩
    rw [← alGet_eq_none_iff, hstable.1]
    rw [alGet_eq_none_iff]
    intro hcin
    exact hdisj g hcin hmemf

/-- C1 witness: a session that polls the completed stopped entry once
and then once more (the remote keeps reporting it): the GID lands in
the completed collection only. -/
theorem c1_witness :
    ("g1" ∈ alKeys (runPolls demoState [snapDone]).completed ∧
      "g1" ∉ alKeys (runPolls demoState [snapDone]).failed) ∨
    ("g1" ∈ alKeys (runPolls demoState [snapDone]).failed ∧
      "g1" ∉ alKeys (runPolls demoState [snapDone]).completed) :=
  (c1_stopped_gid_recorded_exactly_once "dl" 1 Option.none false 6800
      demoState rfl [snapDone] [snapDone] "g1"
      (mkStoppedRecord "g1" egComplete)).1
    ⟨snapDone, List.mem_singleton.mpr rfl, egComplete,
      List.mem_singleton.mpr rfl, rfl⟩

/-- C4: a stopped entry with a fresh GID and a string status is routed
by the poll to the completed collection exactly when the status is the
literal complete, and to the failed collection for any other status,
with string error code and error message fields copied into the record
unchanged. -/
theorem c4_stopped_routed_by_status (st : DState) (e : Entry) (g s : String)
    (hg : entryGet e "gid" = Value.str g)
    (hp : g ∉ st.processed_stopped)
    (hs : entryGet e "status" = Value.str s) :
    (s = "complete" →
      alGet (pollStep st ⟨Value.list [], Value.list [],
          Value.list [Value.dict e]⟩).1.completed g =
        some (mkStoppedRecord g e) ∧
      (pollStep st ⟨Value.list [], Value.list [],
          Value.list [Value.dict e]⟩).1.failed = st.failed) ∧
    (s ≠ "complete" →
      alGet (pollStep st ⟨Value.list [], Value.list [],
          Value.list [Value.dict e]⟩).1.failed g =
        some (mkStoppedRecord g e) ∧
      (pollStep st ⟨Value.list [], Value.list [],
          Value.list [Value.dict e]⟩).1.completed = st.completed) ∧
    (mkStoppedRecord g e).status = s ∧
    (∀ c, entryGet e "errorCode" = Value.str c →
      (mkStoppedRecord g e).errorCode = c) ∧
    (∀ msg, entryGet e "errorMessage" = Value.str msg →
      (mkStoppedRecord g e).errorMessage = msg) := by
  have hstatus : (mkStoppedRecord g e).status = s := by
    show coerce_str (entryGet e "status") "unknown" = s
    rw [hs]
    rfl
  have hpoll : (pollStep st ⟨Value.list [], Value.list [],
      Value.list [Value.dict e]⟩).1 = processStoppedEntry st e := rfl
  refine ⟨?_, ?_, hstatus, ?_, ?_⟩
  · intro hcomp
    rw [hpoll, processStoppedEntry_str st e g hg, if_neg hp,
      if_pos (by rw [hstatus, hcomp])]
    exact ⟨alGet_alSet_self st.completed g (mkStoppedRecord g e), rfl⟩
  · intro hne
    rw [hpoll, processStoppedEntry_str st e g hg, if_neg hp,
      if_neg (by rw [hstatus]; exact hne)]
    exact ⟨alGet_alSet_self st.failed g (mkStoppedRecord g e), rfl⟩
  · intro c hc
    show coerce_str (entryGet e "errorCode") "" = c
    rw [hc]
    rfl
  · intro msg hmsg
    show coerce_str (entryGet e "errorMessage") "" = msg
    rw [hmsg]
    rfl

/-- C4 witness: the spec's scenario, a stopped entry with status error,
code 1, message timeout lands in failed (not completed) with those
fields intact. -/
theorem c4_witness :
    alGet (pollStep demoState ⟨Value.list [], Value.list [],
        Value.list [Value.dict egError]⟩).1.failed "g2" =
      some (mkStoppedRecord "g2" egError) ∧
    (pollStep demoState ⟨Value.list [], Value.list [],
        Value.list [Value.dict egError]⟩).1.completed =
      demoState.completed ∧
    (mkStoppedRecord "g2" egError).errorCode = "1" ∧
    (mkStoppedRecord "g2" egError).errorMessage = "timeout" := by
  have h := c4_stopped_routed_by_status demoState egError "g2" "error" rfl
    (List.not_mem_nil "g2") rfl
  have h2 := h.2.1 (by decide)
  exact ⟨h2.1, h2.2, h.2.2.2.1 "1" rfl, h.2.2.2.2 "timeout" rfl⟩

/-- C5 counterexample: for a stopped entry reporting file path
/downloads/a.mp3, the CompletionRecord stores the full path, while the
progress-label derivation yields the final segment a.mp3 — the record
path is not derived the same way as the progress label. -/
theorem c5_counterexample :
    alGet (processStoppedEntry demoState egFilePath).failed "g3" =
      some (mkStoppedRecord "g3" egFilePath) ∧
    (mkStoppedRecord "g3" egFilePath).path = "/downloads/a.mp3" ∧
    descriptionFilename egFilePath = "a.mp3" ∧
    (mkStoppedRecord "g3" egFilePath).path ≠
      descriptionFilename egFilePath := by
  refine ⟨rfl, rfl, rfl, ?_⟩
  decide

/-- C5 amended: the CompletionRecord path is the first reported string
file path taken in full (the empty string when no file path is
reported), whereas the progress label uses the final path segment of
the first non-empty reported file path and falls back to the GID; the
two derivations differ. -/
theorem c5_record_path_is_full_path (st : DState) (e : Entry) (g s : String)
    (hg : entryGet e "gid" = Value.str g)
    (hp : g ∉ st.processed_stopped) :
    (alGet (processStoppedEntry st e).completed g =
        some (mkStoppedRecord g e) ∨
      alGet (processStoppedEntry st e).failed g =
        some (mkStoppedRecord g e)) ∧
    (mkStoppedRecord g e).path = stoppedPath e ∧
    (∀ fe rest p, extract_file_entries e = fe :: rest →
      entryGet fe "path" = Value.str p → p ≠ "" → pathName p ≠ "" →
      (mkStoppedRecord g e).path = p ∧
      AriaDownloader.build_description e s =
        pathName p ++ " [" ++ pyUpper s ++ "]") ∧
    (extract_file_entries e = [] →
      (mkStoppedRecord g e).path = "" ∧
      AriaDownloader.build_description e s =
        g ++ " [" ++ pyUpper s ++ "]") := by
  refine ⟨?_, rfl, ?_, ?_⟩
  · rw [processStoppedEntry_str st e g hg, if_neg hp]
    by_cases hsc : (mkStoppedRecord g e).status = "complete"
    · rw [if_pos hsc]
      exact Or.inl (alGet_alSet_self st.completed g (mkStoppedRecord g e))
    · rw [if_neg hsc]
      exact Or.inr (alGet_alSet_self st.failed g (mkStoppedRecord g e))
  · intro fe rest p hfe hpath hne hname
    have hloop : descriptionFilenameLoop (fe :: rest) = pathName p := by
      simp only [descriptionFilenameLoop]
      rw [hpath]
      show (if p ≠ "" then pathName p else descriptionFilenameLoop rest) =
        pathName p
      rw [if_pos hne]
    have hfirst : firstStrPath (fe :: rest) = p := by
      simp only [firstStrPath]
      rw [hpath]
    constructor
    · show stoppedPath e = p
      unfold stoppedPath
      rw [hfe, hfirst]
    · unfold AriaDownloader.build_description descriptionFilename
      rw [hfe, hloop, if_neg hname]
  · intro hempty
    constructor
    · show stoppedPath e = ""
      unfold stoppedPath
      rw [hempty]
      rfl
    · unfold AriaDownloader.build_description descriptionFilename
      rw [hempty]
      show (if ("" : String) = "" then coerce_str (entryGet e "gid") "unknown"
        else "") ++ " [" ++ pyUpper s ++ "]" = _
      rw [if_pos rfl, hg]
      rfl

/-- C5 amended witness: the entry reporting /downloads/a.mp3 stores the
full path in its failed record while its progress label shows
a.mp3. -/
theorem c5_witness :
    (alGet (processStoppedEntry demoState egFilePath).completed "g3" =
        some (mkStoppedRecord "g3" egFilePath) ∨
      alGet (processStoppedEntry demoState egFilePath).failed "g3" =
        some (mkStoppedRecord "g3" egFilePath)) ∧
    (mkStoppedRecord "g3" egFilePath).path = "/downloads/a.mp3" ∧
    AriaDownloader.build_description egFilePath "error" =
      pathName "/downloads/a.mp3" ++ " [" ++ pyUpper "error" ++ "]" := by
  have h := c5_record_path_is_full_path demoState egFilePath "g3" "error"
    rfl (List.not_mem_nil "g3")
  have h3 := h.2.2.1 [("path", Value.str "/downloads/a.mp3")] []
    "/downloads/a.mp3" rfl rfl (by decide) (by decide)
  exact ⟨h.1, h3.1, h3.2⟩

theorem addUrlsLoop_ok (gidOf : Nat → String) (urls : List String) (n : Nat) :
    addUrlsLoop true gidOf urls n =
      .ok ((List.range (urls.filter validUrl).length).map (fun k => gidOf (n + k)),
        urls.filter validUrl) := by
  induction urls generalizing n with
  | nil => rfl
  | cons u rest ih =>
      by_cases hv : validUrl u = true
      · rw [List.filter_cons_of_pos hv]
        simp only [addUrlsLoop, hv, if_true]
        rw [ih (n + 1)]
        simp only [List.length_cons, List.range_succ_eq_map,
          List.map_cons, List.map_map]
        rw [if_neg (by simp)]
        have hmap : List.map (fun k => gidOf (n + 1 + k))
            (List.range (rest.filter validUrl).length) =
          List.map ((fun k => gidOf (n + k)) ∘ Nat.succ)
            (List.range (rest.filter validUrl).length) := by
          apply List.map_congr_left
          intro k _
          simp only [Function.comp]
          congr 1
          omega
        rw [hmap, Nat.add_zero]
      · have hv' : validUrl u = false := Bool.eq_false_iff.mpr hv
        rw [List.filter_cons_of_neg (by simp [hv'])]
        simp only [addUrlsLoop, hv', Bool.false_eq_true, if_false]
        exact ih n

/-- C3: on a started orchestrator, add_urls succeeds without raising,
submits via the remote add-URI call exactly the URLs passing validation
(scheme http/https with a non-empty network location), in order, and
returns exactly one gid per valid URL (the ones assigned by the remote
side); invalid URLs are skipped, never submitted, and produce no
error. -/
theorem c3_addUrls_submits_exactly_valid (st : DState) (urls : List String)
    (gidOf : Nat → String) (hr : st.running = true) (hc : st.client = true) :
    AriaDownloader.add_urls st urls gidOf =
      .ok ((List.range (urls.filter validUrl).length).map gidOf,
        urls.filter validUrl) ∧
    ((List.range (urls.filter validUrl).length).map gidOf).length =
      (urls.filter validUrl).length ∧
    (∀ u ∈ urls, validUrl u = false → u ∉ urls.filter validUrl) := by
  refine ⟨?_, by simp, ?_⟩
  · unfold AriaDownloader.add_urls
    rw [if_neg (not_not_intro hr), hc, addUrlsLoop_ok gidOf urls 0]
    have hmap : List.map (fun k => gidOf (0 + k))
        (List.range (urls.filter validUrl).length) =
      List.map gidOf (List.range (urls.filter validUrl).length) := by
      apply List.map_congr_left
      intro k _
      congr 1
      omega
    rw [hmap]
  · intro u _ hinvalid hmem
    rcases List.mem_filter.mp hmem with ⟨_, hvalid⟩
    rw [hinvalid] at hvalid
    cases hvalid

/-- C3 witness: the spec's scenario, two valid URLs and one invalid
ftp URL submitted together yield exactly the two valid submissions and
two gids. -/
theorem c3_witness :
    AriaDownloader.add_urls demoState
        ["https://ex.test/a.mp3", "ftp://bad", "https://ex.test/b.mp3"]
        (fun n => "g" ++ toString n) =
      .ok ((List.range (["https://ex.test/a.mp3", "ftp://bad",
            "https://ex.test/b.mp3"].filter validUrl).length).map
          (fun n => "g" ++ toString n),
        ["https://ex.test/a.mp3", "ftp://bad",
          "https://ex.test/b.mp3"].filter validUrl) ∧
    ((List.range (["https://ex.test/a.mp3", "ftp://bad",
          "https://ex.test/b.mp3"].filter validUrl).length).map
        (fun n => "g" ++ toString n)).length =
      (["https://ex.test/a.mp3", "ftp://bad",
        "https://ex.test/b.mp3"].filter validUrl).length ∧
    (∀ u ∈ ["https://ex.test/a.mp3", "ftp://bad",
        "https://ex.test/b.mp3"], validUrl u = false →
      u ∉ ["https://ex.test/a.mp3", "ftp://bad",
        "https://ex.test/b.mp3"].filter validUrl) :=
  c3_addUrls_submits_exactly_valid demoState
    ["https://ex.test/a.mp3", "ftp://bad", "https://ex.test/b.mp3"]
    (fun n => "g" ++ toString n) rfl rfl

theorem startAttempt_cases (i : Nat) (env : AttemptEnv) :
    startAttempt i env = ([], .error .binaryNotFound) ∨
    (∃ rc errOut, env.earlyExit = some (rc, errOut) ∧
      startAttempt i env = ([.spawned i, .exitedEarly i],
        .error (.processExitEarly rc env.port (pyStrip errOut)))) ∨
    startAttempt i env =
      ([.spawned i, .killed i], .error (.tcpNotReady env.port)) ∨
    startAttempt i env =
      ([.spawned i, .killed i], .error (.rpcNotReady env.port)) ∨
    startAttempt i env = ([.spawned i], .ok (i, env.port)) := by
  by_cases hsp : env.spawnOk = true
  · cases hee : env.earlyExit with
    | some pr =>
        rcases pr with ⟨rc, errOut⟩
        refine Or.inr (Or.inl ⟨rc, errOut, rfl, ?_⟩)
        unfold startAttempt
        rw [if_neg (not_not_intro hsp), hee]
    | none =>
        by_cases htcp : env.tcpOk = true
        · by_cases hrpc : env.rpcOk = true
          · refine Or.inr (Or.inr (Or.inr (Or.inr ?_)))
            unfold startAttempt
            rw [if_neg (not_not_intro hsp), hee,
              if_neg (not_not_intro htcp), if_neg (not_not_intro hrpc)]
          · refine Or.inr (Or.inr (Or.inr (Or.inl ?_)))
            unfold startAttempt
            rw [if_neg (not_not_intro hsp), hee,
              if_neg (not_not_intro htcp), if_pos (by simpa using hrpc)]
        · refine Or.inr (Or.inr (Or.inl ?_))
          unfold startAttempt
          rw [if_neg (not_not_intro hsp), hee,
            if_pos (by simpa using htcp)]
  · refine Or.inl ?_
    unfold startAttempt
    rw [if_pos (by simpa using hsp)]

theorem startAttempt_error_dead (i : Nat) (env : AttemptEnv) (e : StartErr)
    (h : (startAttempt i env).2 = .error e) (j : Nat)
    (hsp : StartAction.spawned j ∈ (startAttempt i env).1) :
    StartAction.exitedEarly j ∈ (startAttempt i env).1 ∨
    StartAction.killed j ∈ (startAttempt i env).1 := by
  rcases startAttempt_cases i env with hc | ⟨rc, errOut, hee, hc⟩ | hc | hc | hc
  · rw [hc] at hsp; cases hsp
  · rw [hc] at hsp ⊢
    simp only [List.mem_cons, List.mem_singleton] at hsp
    rcases hsp with h1 | h1 | h1
    · cases h1
      exact Or.inl (by simp)
    · cases h1
    · cases h1
  · rw [hc] at hsp ⊢
    simp only [List.mem_cons, List.mem_singleton] at hsp
    rcases hsp with h1 | h1 | h1
    · cases h1
      exact Or.inr (by simp)
    · cases h1
    · cases h1
  · rw [hc] at hsp ⊢
    simp only [List.mem_cons, List.mem_singleton] at hsp
    rcases hsp with h1 | h1 | h1
    · cases h1
      exact Or.inr (by simp)
    · cases h1
    · cases h1
  · rw [hc] at h
    cases h

theorem startRetryGo_succ_ok (envs : Nat → AttemptEnv) (i fuel : Nat)
    (acts : List StartAction) (v : Nat × Int)
    (hA : startAttempt i (envs i) = (acts, .ok v)) :
    startRetryGo envs i (fuel + 1) = (acts, .ok v) := by
  simp only [startRetryGo]
  rw [hA]

theorem startRetryGo_succ_error_last (envs : Nat → AttemptEnv) (i : Nat)
    (acts : List StartAction) (e : StartErr)
    (hA : startAttempt i (envs i) = (acts, .error e)) :
    startRetryGo envs i 1 = (acts, .error e) := by
  simp only [startRetryGo]
  rw [hA]
  rfl

theorem startRetryGo_succ_error_retry (envs : Nat → AttemptEnv)
    (i fuel : Nat) (acts : List StartAction) (e : StartErr)
    (hfuel : fuel ≠ 0)
    (hA : startAttempt i (envs i) = (acts, .error e)) :
    startRetryGo envs i (fuel + 1) =
      (acts ++ (startRetryGo envs (i + 1) fuel).1,
        (startRetryGo envs (i + 1) fuel).2) := by
  simp only [startRetryGo]
  rw [hA]
  show (if fuel = 0 then (acts, Except.error e) else _) = _
  rw [if_neg hfuel]

theorem startRetryGo_error_dead (envs : Nat → AttemptEnv) :
    ∀ fuel i e, (startRetryGo envs i fuel).2 = .error e →
    ∀ j, StartAction.spawned j ∈ (startRetryGo envs i fuel).1 →
      StartAction.exitedEarly j ∈ (startRetryGo envs i fuel).1 ∨
      StartAction.killed j ∈ (startRetryGo envs i fuel).1 := by
  intro fuel
  induction fuel with
  | zero => intro i e _ j hsp; cases hsp
  | succ fuel ih =>
      intro i e herr j hsp
      rcases hA : startAttempt i (envs i) with ⟨acts, res⟩
      cases res with
      | ok v =>
          rw [startRetryGo_succ_ok envs i fuel acts v hA] at herr
          cases herr
      | error e' =>
          by_cases hfuel : fuel = 0
          · subst hfuel
            rw [startRetryGo_succ_error_last envs i acts e' hA] at hsp ⊢
            have hdead := startAttempt_error_dead i (envs i) e'
              (by rw [hA]) j (by rw [hA]; exact hsp)
            rw [hA] at hdead
            exact hdead
          · rw [startRetryGo_succ_error_retry envs i fuel acts e' hfuel hA]
              at herr hsp ⊢
            rcases List.mem_append.mp hsp with hin | hin
            · have hdead := startAttempt_error_dead i (envs i) e'
                (by rw [hA]) j (by rw [hA]; exact hin)
              rw [hA] at hdead
              rcases hdead with hd | hd
              · exact Or.inl (List.mem_append_left _ hd)
              · exact Or.inr (List.mem_append_left _ hd)
            · rcases ih (i + 1) e herr j hin with hd | hd
              · exact Or.inl (List.mem_append_right _ hd)
              · exact Or.inr (List.mem_append_right _ hd)

theorem start_error_no_leftRunning (envs : Nat → AttemptEnv) (e : StartErr)
    (h : (start_aria2c_ephemeral_rpc envs).2 = .error e) (j : Nat) :
    ¬ leftRunning (start_aria2c_ephemeral_rpc envs).1 j := by
  rintro ⟨hsp, hex, hki⟩
  rcases startRetryGo_error_dead envs 5 0 e h j hsp with hd | hd
  · exact hex hd
  · exact hki hd

/-- C6: an attempt whose subprocess spawns and stays alive but whose
TCP or RPC readiness phase exhausts its retry policy kills that
subprocess before raising (its trace is exactly spawn then kill, and
the result is an error); and globally, whenever startup fails, no
spawned subprocess is left running. -/
theorem c6_readiness_failure_kills_subprocess (envs : Nat → AttemptEnv)
    (i : Nat) (env : AttemptEnv) (e : StartErr) (j : Nat)
    (hsp : env.spawnOk = true) (hee : env.earlyExit = Option.none)
    (hready : env.tcpOk = false ∨ env.rpcOk = false) :
    (startAttempt i env).1 =
      [StartAction.spawned i, StartAction.killed i] ∧
    (∃ err, (startAttempt i env).2 = .error err) ∧
    ((start_aria2c_ephemeral_rpc envs).2 = .error e →
      ¬ leftRunning (start_aria2c_ephemeral_rpc envs).1 j) := by
  have hA : ∃ err, startAttempt i env =
      ([StartAction.spawned i, StartAction.killed i], .error err) := by
    by_cases htcp : env.tcpOk = true
    · have hrpc : env.rpcOk = false := by
        rcases hready with h1 | h1
        · rw [htcp] at h1; cases h1
        · exact h1
      refine ⟨.rpcNotReady env.port, ?_⟩
      unfold startAttempt
      rw [if_neg (not_not_intro hsp), hee, if_neg (not_not_intro htcp),
        if_pos (by simp [hrpc])]
    · refine ⟨.tcpNotReady env.port, ?_⟩
      unfold startAttempt
      rw [if_neg (not_not_intro hsp), hee, if_pos (by simpa using htcp)]
  rcases hA with ⟨err, hA⟩
  exact ⟨by rw [hA], ⟨err, by rw [hA]⟩,
    fun herr => start_error_no_leftRunning envs e herr j⟩

/-- C6 witness: an environment whose TCP probe never succeeds — the
attempt spawns and kills, and the retried startup leaves nothing
running. -/
theorem c6_witness :
    (startAttempt 0 demoTcpFailEnv).1 =
      [StartAction.spawned 0, StartAction.killed 0] ∧
    (∃ err, (startAttempt 0 demoTcpFailEnv).2 = .error err) ∧
    ((start_aria2c_ephemeral_rpc (fun _ => demoTcpFailEnv)).2 =
        .error (StartErr.tcpNotReady 6800) →
      ¬ leftRunning
        (start_aria2c_ephemeral_rpc (fun _ => demoTcpFailEnv)).1 0) :=
  c6_readiness_failure_kills_subprocess (fun _ => demoTcpFailEnv) 0
    demoTcpFailEnv (StartErr.tcpNotReady 6800) 0 rfl rfl (Or.inl rfl)

/-- C7: when the subprocess of every retry attempt has already exited
at the post-spawn liveness sample, start raises the process-exit-early
error of the final attempt, carrying that subprocess's return code and
its captured (stripped) stderr, and no running subprocess is leaked. -/
theorem c7_early_exit_raises_with_stderr (envs : Nat → AttemptEnv)
    (rc : Int) (s : String)
    (hall : ∀ i, i < 5 → (envs i).spawnOk = true ∧ (envs i).earlyExit.isSome)
    (h4 : (envs 4).earlyExit = some (rc, s)) :
    (start_aria2c_ephemeral_rpc envs).2 =
      .error (.processExitEarly rc (envs 4).port (pyStrip s)) ∧
    ∀ j, ¬ leftRunning (start_aria2c_ephemeral_rpc envs).1 j := by
  have hAt : ∀ i, i < 5 → ∃ rci si, (envs i).earlyExit = some (rci, si) ∧
      startAttempt i (envs i) =
        ([StartAction.spawned i, StartAction.exitedEarly i],
          .error (.processExitEarly rci (envs i).port (pyStrip si))) := by
    intro i hi
    rcases Option.isSome_iff_exists.mp (hall i hi).2 with ⟨pr, hee⟩
    rcases pr with ⟨rci, si⟩
    refine ⟨rci, si, hee, ?_⟩
    unfold startAttempt
    rw [if_neg (not_not_intro (hall i hi).1), hee]
  rcases hAt 0 (by omega) with ⟨rc0, s0, _, hA0⟩
  rcases hAt 1 (by omega) with ⟨rc1, s1, _, hA1⟩
  rcases hAt 2 (by omega) with ⟨rc2, s2, _, hA2⟩
  rcases hAt 3 (by omega) with ⟨rc3, s3, _, hA3⟩
  rcases hAt 4 (by omega) with ⟨rc4, s4, hee4, hA4⟩
  have hc4 : rc4 = rc ∧ s4 = s := by
    rw [hee4] at h4
    exact ⟨by injection h4 with h5; injection h5 with h6 h7,
      by injection h4 with h5; injection h5 with h6 h7⟩
  have hrun : start_aria2c_ephemeral_rpc envs =
      ([StartAction.spawned 0, StartAction.exitedEarly 0] ++
        ([StartAction.spawned 1, StartAction.exitedEarly 1] ++
          ([StartAction.spawned 2, StartAction.exitedEarly 2] ++
            ([StartAction.spawned 3, StartAction.exitedEarly 3] ++
              [StartAction.spawned 4, StartAction.exitedEarly 4]))),
        .error (.processExitEarly rc4 (envs 4).port (pyStrip s4))) := by
    unfold start_aria2c_ephemeral_rpc
    rw [startRetryGo_succ_error_retry envs 0 4 _ _ (by omega) hA0,
      startRetryGo_succ_error_retry envs 1 3 _ _ (by omega) hA1,
      startRetryGo_succ_error_retry envs 2 2 _ _ (by omega) hA2,
      startRetryGo_succ_error_retry envs 3 1 _ _ (by omega) hA3,
      startRetryGo_succ_error_last envs 4 _ _ hA4]
  constructor
  · rw [hrun, hc4.1, hc4.2]
  · intro j
    apply start_error_no_leftRunning envs
      (.processExitEarly rc4 (envs 4).port (pyStrip s4))
    rw [hrun]

/-- C7 witness: every attempt hits the simulated port collision; start
propagates the exit-early error with return code 1 and the stripped
stderr text, leaving no process running. -/
theorem c7_witness :
    (start_aria2c_ephemeral_rpc (fun _ => demoExitEnv)).2 =
      .error (.processExitEarly 1 (demoExitEnv.port)
        (pyStrip " could not bind\n")) ∧
    ∀ j, ¬ leftRunning
      (start_aria2c_ephemeral_rpc (fun _ => demoExitEnv)).1 j :=
  c7_early_exit_raises_with_stderr (fun _ => demoExitEnv) 1
    " could not bind\n" (fun _ _ => ⟨rfl, rfl⟩) rfl

end Retrocast
